import Mathlib

/-!
Verification of the authenticated HTTP client in `src/frontend/lib/api.ts`
("Decision Ledger").  The client is a single function `apiRequest` plus
verb helpers; its observable behaviour is embedded shallowly below.

Modelling decisions, all taken from the source:

* The host runtime is single-threaded; a pending promise is identified with
  its eventual settled outcome (`Outcome`).  The in-flight registry
  (`const inflight = new Map<string, Promise<any>>()`) is a map from
  fingerprint strings to such outcomes.
* `JSON.parse` / `JSON.stringify` belong to the host; the parser is an
  abstract field of the environment, and a request body is carried in its
  already-serialized form (`Option String`), which is all the client ever
  inspects (`body !== undefined`, `JSON.stringify(body)`).
* Real time is abstracted to arrival instants: the network either delivers a
  response at instant `t` or fails at instant `t`; the merged abort
  controller fires at the earliest of the timeout and a *future* abort event
  of the caller's external signal (`addEventListener("abort", ...)` never
  fires for an event already in the past).  `fetch` rejects with an
  `AbortError` exactly when the controller aborts strictly before arrival.
* Errors are the exact message strings the source builds with `throw new
  Error(...)`.
* Observable side effects (network calls made, registry operations, headers
  sent, whether the body was read, timer armed / listener attached at exit)
  are returned as explicit trace fields.
-/

namespace ApiClient

/-- HTTP method, `"GET" | "POST" | "PUT" | "PATCH" | "DELETE"`. -/
inductive Method where
  | GET
  | POST
  | PUT
  | PATCH
  | DELETE
deriving DecidableEq, Repr

/-- The string the source interpolates for a method (template literals
`${method} ${url}` and the error messages). -/
def Method.str : Method → String
  | .GET => "GET"
  | .POST => "POST"
  | .PUT => "PUT"
  | .PATCH => "PATCH"
  | .DELETE => "DELETE"

/-- A JSON value as returned by the host's `JSON.parse`. -/
inductive JsonValue where
  | null
  | bool (b : Bool)
  | num (n : Int)
  | str (s : String)
  | arr (xs : List JsonValue)
  | obj (fields : List (String × JsonValue))

/-- Successful result of `apiRequest`: `null` (for 204 / empty body), a
parsed JSON value, or the raw body text when parsing fails. -/
inductive Success where
  | empty
  | json (v : JsonValue)
  | raw (text : String)

/-- The settled value of the request promise: either a success value or the
message string of the thrown `Error`. -/
abbrev Outcome := Except String Success

/-- The caller's external `AbortSignal`.  `aborted` is its state when the
request starts; `fireAt` is the instant at which a *future* `abort` event is
delivered to listeners (`none` when no such event ever fires — in
particular an already-aborted signal delivers no further `abort` event, so
a listener added after the fact never runs). -/
structure SignalModel where
  aborted : Bool
  fireAt : Option Nat

/-- `type RequestOpts = { signal?: AbortSignal; timeoutMs?: number }`. -/
structure RequestOpts where
  signal : Option SignalModel
  timeoutMs : Option Nat

/-- Behaviour of the network for one issued `fetch`: a response becomes
available at instant `t`, or connectivity fails at instant `t`. -/
structure HttpResponse where
  status : Nat
  /-- `none` models a body whose read (`res.text()`) fails; the source
  swallows that failure via `.catch(() => "")`. -/
  bodyText : Option String

inductive NetBehavior where
  | respondsAt (t : Nat) (resp : HttpResponse)
  | failsAt (t : Nat)

/-- Arrival instant of the network event (response or failure). -/
def NetBehavior.arrival : NetBehavior → Nat
  | .respondsAt t _ => t
  | .failsAt t => t

/-- Environment of one call: configured base URL, session token presently
held by the external session provider, the host JSON parser, and the
network's behaviour for the request this call would issue. -/
structure Env where
  apiBase : String
  token : Option String
  jsonParse : String → Option JsonValue
  net : NetBehavior

/-- `authHeaders(extra)`: bearer header from the current session token,
spread together with the extra headers. -/
def authHeaders (token : Option String) (extra : List (String × String)) :
    List (String × String) :=
  (match token with
    | some t => [("Authorization", "Bearer " ++ t)]
    | none => []) ++ extra

/-- The dedup key: `` `${method} ${url}` `` for GET, else
`` `${method} ${url} ${body !== undefined ? JSON.stringify(body) : ""}` ``
(the body argument here is already serialized). -/
def fingerprint (method : Method) (url : String) (body : Option String) :
    String :=
  if method = .GET then method.str ++ " " ++ url
  else method.str ++ " " ++ url ++ " " ++ body.getD ""

/-- `` throw new Error(`API timeout/abort → ${method} ${url}`) ``. -/
def timeoutMsg (method : Method) (url : String) : String :=
  "API timeout/abort → " ++ method.str ++ " " ++ url

/-- `` throw new Error(`Network error → ${method} ${url}`) ``. -/
def networkMsg (method : Method) (url : String) : String :=
  "Network error → " ++ method.str ++ " " ++ url

/-- `` throw new Error(`API error: 401 Unauthorized ${url}`) ``. -/
def unauthorizedMsg (url : String) : String :=
  "API error: 401 Unauthorized " ++ url

/-- `` throw new Error(`API error: ${res.status} ${url} ${text}`) ``. -/
def apiErrorMsg (status : Nat) (url : String) (text : String) : String :=
  "API error: " ++ toString status ++ " " ++ url ++ " " ++ text

/-- `const timeoutMs = opts?.timeoutMs ?? 12000`. -/
def effTimeout (opts : Option RequestOpts) : Nat :=
  (opts.bind RequestOpts.timeoutMs).getD 12000

/-- Instant at which the merged `AbortController` aborts: the timeout
always arms (`setTimeout(() => controller.abort(), timeoutMs)`), and when
an external signal is supplied its future `abort` event also calls
`controller.abort()` through the registered listener — whichever fires
first. -/
def abortTime (timeoutMs : Nat) (signal : Option SignalModel) : Nat :=
  match signal with
  | none => timeoutMs
  | some s =>
    match s.fireAt with
    | none => timeoutMs
    | some u => min timeoutMs u

/-- Abort instant for a call's options. -/
def effAbortTime (opts : Option RequestOpts) : Nat :=
  abortTime (effTimeout opts) (opts.bind RequestOpts.signal)

/-- Observable record of one non-deduplicated run (the async IIFE `run`). -/
structure RunResult where
  outcome : Outcome
  /-- Headers handed to `fetch`. -/
  sentHeaders : List (String × String)
  /-- Number of `supabase.auth.getSession()` queries made. -/
  sessionQueries : Nat
  /-- Whether `res.text()` was invoked on the response. -/
  readBody : Bool
  /-- Whether the timeout timer is still armed when the run settles. -/
  timerArmed : Bool
  /-- Whether the external-signal listener is still attached at settle. -/
  listenerAttached : Bool

/-- Handling of a received response (`res`), lines 107–127 of the source:
non-ok statuses read the body best-effort and throw (401 specially), 204
returns null without reading, otherwise the body text is parsed as JSON
with fallback to the raw text.  Returns the outcome and whether the body
was read. -/
def handleResponse (jsonParse : String → Option JsonValue) (url : String)
    (resp : HttpResponse) : Outcome × Bool :=
  if ¬ (200 ≤ resp.status ∧ resp.status ≤ 299) then
    -- const text = await res.text().catch(() => "")
    let text := resp.bodyText.getD ""
    if resp.status = 401 then (Except.error (unauthorizedMsg url), true)
    else (Except.error (apiErrorMsg resp.status url text), true)
  else if resp.status = 204 then (Except.ok Success.empty, false)
  else
    let text := resp.bodyText.getD ""
    if text = "" then (Except.ok Success.empty, true)
    else
      match jsonParse text with
      | some v => (Except.ok (Success.json v), true)
      | none => (Except.ok (Success.raw text), true)

/-- The body of `run` for a non-deduplicated request: resolve headers
(one session query), arm the timeout and attach the optional abort
listener, issue `fetch`, and — in `finally` — clear the timer and detach
the listener before any response handling. -/
def runRequest (env : Env) (method : Method) (url : String)
    (body : Option String) (opts : Option RequestOpts) : RunResult :=
  let headers := authHeaders env.token
    (if body.isSome then [("Content-Type", "application/json")] else [])
  let a := effAbortTime opts
  -- the try/finally around fetch releases both resources on every path,
  -- before the response is inspected
  match env.net with
  | .failsAt t =>
    if a < t then
      { outcome := Except.error (timeoutMsg method url),
        sentHeaders := headers, sessionQueries := 1, readBody := false,
        timerArmed := false, listenerAttached := false }
    else
      { outcome := Except.error (networkMsg method url),
        sentHeaders := headers, sessionQueries := 1, readBody := false,
        timerArmed := false, listenerAttached := false }
  | .respondsAt t resp =>
    if a < t then
      { outcome := Except.error (timeoutMsg method url),
        sentHeaders := headers, sessionQueries := 1, readBody := false,
        timerArmed := false, listenerAttached := false }
    else
      let h := handleResponse env.jsonParse url resp
      { outcome := h.1,
        sentHeaders := headers, sessionQueries := 1, readBody := h.2,
        timerArmed := false, listenerAttached := false }

/-- The module-scoped `inflight` map, fingerprint ↦ pending outcome. -/
abbrev Registry := String → Option Outcome

/-- `inflight.set(key, run)`. -/
def Registry.set (r : Registry) (k : String) (v : Outcome) : Registry :=
  fun k' => if k' = k then some v else r k'

/-- `inflight.delete(key)`. -/
def Registry.delete (r : Registry) (k : String) : Registry :=
  fun k' => if k' = k then none else r k'

/-- One operation performed on the in-flight registry. -/
inductive RegOp where
  | has (key : String)
  | set (key : String)
  | delete (key : String)
deriving DecidableEq, Repr

/-- Observable record of one `apiRequest(method, path, body?, opts?)`
call. -/
structure ApiResult where
  outcome : Outcome
  /-- Network round trips issued by this call itself. -/
  networkCalls : Nat
  /-- Registry operations this call performs, in order. -/
  regTrace : List RegOp
  /-- Registry contents after this call's promise settles. -/
  finalRegistry : Registry

/-- `apiRequest`: build the url and dedup key; a GET whose key is already
in-flight returns the registered pending result (no new network call);
otherwise the run is started, registered when GET, awaited, and — in
`finally` — its key deleted when GET. -/
def apiRequest (env : Env) (inflight : Registry) (method : Method)
    (path : String) (body : Option String) (opts : Option RequestOpts) :
    ApiResult :=
  let url := env.apiBase ++ path
  let key := fingerprint method url body
  if method = .GET then
    match inflight key with
    | some p =>
      -- if (method === "GET" && inflight.has(key)) return inflight.get(key)!
      { outcome := p, networkCalls := 0, regTrace := [RegOp.has key],
        finalRegistry := inflight }
    | none =>
      let out := (runRequest env method url body opts).outcome
      -- inflight.set(key, run); try { return await run } finally { inflight.delete(key) }
      { outcome := out, networkCalls := 1,
        regTrace := [RegOp.has key, RegOp.set key, RegOp.delete key],
        finalRegistry := Registry.delete (Registry.set inflight key out) key }
  else
    let out := (runRequest env method url body opts).outcome
    { outcome := out, networkCalls := 1, regTrace := [],
      finalRegistry := inflight }

/-- `export function apiGet(path, opts)`. -/
def apiGet (env : Env) (inflight : Registry) (path : String)
    (opts : Option RequestOpts) : ApiResult :=
  apiRequest env inflight .GET path none opts

/-- `export function apiPost(path, body, opts)`. -/
def apiPost (env : Env) (inflight : Registry) (path : String)
    (body : Option String) (opts : Option RequestOpts) : ApiResult :=
  apiRequest env inflight .POST path body opts

/-- `export function apiPut(path, body, opts)`. -/
def apiPut (env : Env) (inflight : Registry) (path : String)
    (body : Option String) (opts : Option RequestOpts) : ApiResult :=
  apiRequest env inflight .PUT path body opts

/-- `export function apiPatch(path, body, opts)`. -/
def apiPatch (env : Env) (inflight : Registry) (path : String)
    (body : Option String) (opts : Option RequestOpts) : ApiResult :=
  apiRequest env inflight .PATCH path body opts

/-- `export function apiDelete(path, opts)`. -/
def apiDelete (env : Env) (inflight : Registry) (path : String)
    (opts : Option RequestOpts) : ApiResult :=
  apiRequest env inflight .DELETE path none opts

/-- Boolean substring test, used to state what an error message carries. -/
def containsSub (hay needle : String) : Bool :=
  (List.range (hay.toList.length + 1)).any
    (fun i => needle.toList.isPrefixOf (hay.toList.drop i))

/-! Concrete data reused by the witness theorems below. -/

/-- An empty in-flight registry. -/
def emptyReg : Registry := fun _ => none

/-- An environment whose network fails immediately (never consulted when a
call is deduplicated). -/
def envW : Env :=
  { apiBase := "http://a", token := none, jsonParse := fun _ => none,
    net := NetBehavior.failsAt 0 }

/-- A registry already holding a pending outcome for `GET http://a/w`. -/
def regW : Registry :=
  fun k => if k = "GET http://a/w" then some (Except.ok Success.empty)
           else none

/-! ## Helper lemmas about substring containment -/

theorem isPrefixOf_append_self {α : Type} [DecidableEq α] (l t : List α) :
    l.isPrefixOf (l ++ t) = true := by
  induction l with
  | nil => simp [List.isPrefixOf]
  | cons a l ih => simp [List.isPrefixOf, ih]

theorem containsSub_of_decomp (hay needle : String) (a c : List Char)
    (h : hay.toList = a ++ needle.toList ++ c) :
    containsSub hay needle = true := by
  unfold containsSub
  apply List.any_eq_true.mpr
  refine ⟨a.length, List.mem_range.mpr ?_, ?_⟩
  · rw [h]
    simp only [List.length_append]
    omega
  · rw [h, List.append_assoc, List.drop_left]
    exact isPrefixOf_append_self _ _

theorem toList_append (s t : String) :
    (s ++ t).toList = s.toList ++ t.toList := by
  simp [String.toList]

/-! ## Claim theorems -/

/-- C1: when `execute` is invoked for a GET whose fingerprint (method +
full URL) already has a pending result in the in-flight registry, it
returns that exact pending result and issues no network call of its own,
so every concurrent caller with the same fingerprint in the same in-flight
window observes the identical outcome. -/
theorem get_dedup_single_flight (env : Env) (inflight : Registry)
    (path : String) (body : Option String) (opts opts₂ : Option RequestOpts)
    (p : Outcome)
    (h : inflight (fingerprint .GET (env.apiBase ++ path) body) = some p) :
    (apiRequest env inflight .GET path body opts).outcome = p ∧
    (apiRequest env inflight .GET path body opts).networkCalls = 0 ∧
    (apiRequest env inflight .GET path body opts).outcome =
      (apiRequest env inflight .GET path body opts₂).outcome := by
  simp [apiRequest, h]

theorem get_dedup_single_flight_witness :
    (apiRequest envW regW .GET "/w" none none).outcome
        = Except.ok Success.empty ∧
    (apiRequest envW regW .GET "/w" none none).networkCalls = 0 ∧
    (apiRequest envW regW .GET "/w" none none).outcome =
      (apiRequest envW regW .GET "/w" none
        (some { signal := none, timeoutMs := some 5 })).outcome :=
  get_dedup_single_flight envW regW "/w" none none
    (some { signal := none, timeoutMs := some 5 })
    (Except.ok Success.empty) (by rfl)

/-- C2: registry lifecycle.  A fresh GET performs exactly a membership
check, an insertion of its fingerprint, and one deletion at finalization
(after which the fingerprint is gone); a deduplicated GET only performs
the membership check; a non-GET call never touches the registry, leaves
it unchanged, and issues its own network call. -/
theorem registry_lifecycle (env : Env) (inflight : Registry)
    (method : Method) (path : String) (body : Option String)
    (opts : Option RequestOpts) (key : String)
    (hkey : key = fingerprint method (env.apiBase ++ path) body) :
    (method = .GET → inflight key = none →
      (apiRequest env inflight method path body opts).regTrace
          = [RegOp.has key, RegOp.set key, RegOp.delete key] ∧
      (apiRequest env inflight method path body opts).finalRegistry key
          = none) ∧
    (∀ p, method = .GET → inflight key = some p →
      (apiRequest env inflight method path body opts).regTrace
          = [RegOp.has key]) ∧
    (method ≠ .GET →
      (apiRequest env inflight method path body opts).regTrace = [] ∧
      (apiRequest env inflight method path body opts).finalRegistry
          = inflight ∧
      (apiRequest env inflight method path body opts).networkCalls = 1) := by
  subst hkey
  refine ⟨?_, ?_, ?_⟩
  · intro hm hnone
    subst hm
    simp [apiRequest, hnone, Registry.delete]
  · intro p hm hsome
    subst hm
    simp [apiRequest, hsome]
  · intro hm
    simp [apiRequest, hm]

theorem registry_lifecycle_witness :
    ((apiRequest envW emptyReg .GET "/w" none none).regTrace
        = [RegOp.has "GET http://a/w", RegOp.set "GET http://a/w",
           RegOp.delete "GET http://a/w"] ∧
      (apiRequest envW emptyReg .GET "/w" none none).finalRegistry
          "GET http://a/w" = none) ∧
    (apiRequest envW emptyReg .POST "/w" none none).regTrace = [] :=
  ⟨(registry_lifecycle envW emptyReg .GET "/w" none none
      "GET http://a/w" (by rfl)).1 rfl (by rfl),
   ((registry_lifecycle envW emptyReg .POST "/w" none none
      "POST http://a/w " (by rfl)).2.2 (by simp)).1⟩

/-- C8: a deduplicated GET caller's own options are inert — for any two
option values the whole observable result of the call is identical (the
registered pending outcome is returned before the later caller's timeout
override or cancellation signal can have any effect). -/
theorem dedup_options_noninterference (env : Env) (inflight : Registry)
    (path : String) (body : Option String) (opts₁ opts₂ : Option RequestOpts)
    (p : Outcome)
    (h : inflight (fingerprint .GET (env.apiBase ++ path) body) = some p) :
    apiRequest env inflight .GET path body opts₁ =
      apiRequest env inflight .GET path body opts₂ ∧
    (apiRequest env inflight .GET path body opts₁).outcome = p := by
  simp [apiRequest, h]

theorem dedup_options_noninterference_witness :
    apiRequest envW regW .GET "/w" none
        (some { signal := some { aborted := false, fireAt := some 1 },
                timeoutMs := some 1 }) =
      apiRequest envW regW .GET "/w" none none ∧
    (apiRequest envW regW .GET "/w" none
        (some { signal := some { aborted := false, fireAt := some 1 },
                timeoutMs := some 1 })).outcome = Except.ok Success.empty :=
  dedup_options_noninterference envW regW "/w" none
    (some { signal := some { aborted := false, fireAt := some 1 },
            timeoutMs := some 1 }) none
    (Except.ok Success.empty) (by rfl)

/-- C3: when the merged abort controller fires strictly before the network
event arrives — the timeout (default 12000 ms or the caller's override) or
the caller's external cancellation signal, whichever is first — the caller
receives the timeout/abort failure naming the method and full URL, and for
a GET the fingerprint is absent from the registry after the failure is
final. -/
theorem abort_surfaces_timeout_failure (env : Env) (inflight : Registry)
    (method : Method) (path : String) (body : Option String)
    (opts : Option RequestOpts)
    (hfresh : inflight (fingerprint method (env.apiBase ++ path) body) = none)
    (habort : effAbortTime opts < env.net.arrival) :
    (apiRequest env inflight method path body opts).outcome
        = Except.error (timeoutMsg method (env.apiBase ++ path)) ∧
    (method = .GET →
      (apiRequest env inflight method path body opts).finalRegistry
          (fingerprint method (env.apiBase ++ path) body) = none) := by
  have hrun : (runRequest env method (env.apiBase ++ path) body opts).outcome
      = Except.error (timeoutMsg method (env.apiBase ++ path)) := by
    unfold runRequest
    rcases hn : env.net with ⟨t, resp⟩ | t <;>
      · rw [hn] at habort
        simp only [NetBehavior.arrival] at habort
        simp [habort]
  constructor
  · by_cases hm : method = .GET
    · subst hm
      simp [apiRequest, hfresh, hrun]
    · simp [apiRequest, hm, hrun]
  · intro hm
    subst hm
    simp [apiRequest, hfresh, Registry.delete]

/-- A network that would only respond long after the default timeout. -/
def envLate : Env :=
  { apiBase := "http://a", token := none, jsonParse := fun _ => none,
    net := NetBehavior.respondsAt 20000 { status := 200, bodyText := some "late" } }

theorem abort_surfaces_timeout_failure_witness :
    (apiRequest envLate emptyReg .GET "/w" none
        (some { signal := some { aborted := false, fireAt := some 5 },
                timeoutMs := none })).outcome
      = Except.error "API timeout/abort → GET http://a/w" ∧
    (apiRequest envLate emptyReg .GET "/w" none
        (some { signal := some { aborted := false, fireAt := some 5 },
                timeoutMs := none })).finalRegistry "GET http://a/w" = none :=
  ⟨(abort_surfaces_timeout_failure envLate emptyReg .GET "/w" none
      (some { signal := some { aborted := false, fireAt := some 5 },
              timeoutMs := none }) (by rfl) (by decide)).1,
   (abort_surfaces_timeout_failure envLate emptyReg .GET "/w" none
      (some { signal := some { aborted := false, fireAt := some 5 },
              timeoutMs := none }) (by rfl) (by decide)).2 rfl⟩

/-- C7: on every exit path of a non-deduplicated run — abort, network
failure, non-2xx, or any success path — the timeout timer has been cleared
and the external-signal listener detached by the time the run settles. -/
theorem resources_released (env : Env) (method : Method) (url : String)
    (body : Option String) (opts : Option RequestOpts) :
    (runRequest env method url body opts).timerArmed = false ∧
    (runRequest env method url body opts).listenerAttached = false := by
  unfold runRequest
  rcases env.net with ⟨t, resp⟩ | t <;> dsimp only <;> split <;> simp

/-- C9: a caller-supplied signal that is already aborted when a fresh
request starts never cancels it: the abort handler is only registered for
a future `abort` event, which an already-aborted signal never delivers, so
the effective abort instant is exactly the timeout and the whole run
behaves as if no external signal had been supplied. -/
theorem already_aborted_signal_inert (env : Env) (method : Method)
    (url : String) (body : Option String) (s : SignalModel)
    (tm : Option Nat) (haborted : s.aborted = true)
    (hnofire : s.fireAt = none) :
    effAbortTime (some { signal := some s, timeoutMs := tm })
        = tm.getD 12000 ∧
    runRequest env method url body
        (some { signal := some s, timeoutMs := tm })
      = runRequest env method url body
        (some { signal := none, timeoutMs := tm }) := by
  have he : effAbortTime (some { signal := some s, timeoutMs := tm })
      = tm.getD 12000 := by
    simp [effAbortTime, abortTime, effTimeout, hnofire]
  refine ⟨he, ?_⟩
  unfold runRequest
  rw [he]
  simp [effAbortTime, abortTime, effTimeout]

theorem already_aborted_signal_inert_witness :
    effAbortTime (some { signal := some { aborted := true, fireAt := none },
                         timeoutMs := some 7 }) = 7 ∧
    runRequest envW .GET "http://a/w" none
        (some { signal := some { aborted := true, fireAt := none },
                timeoutMs := some 7 })
      = runRequest envW .GET "http://a/w" none
        (some { signal := none, timeoutMs := some 7 }) :=
  already_aborted_signal_inert envW .GET "http://a/w" none
    { aborted := true, fireAt := none } (some 7) rfl rfl

/-- A 401 response carrying a response body. -/
def env401 : Env :=
  { apiBase := "http://a", token := none, jsonParse := fun _ => none,
    net := NetBehavior.respondsAt 5 { status := 401, bodyText := some "denied" } }

/-- C4 counterexample: a 401 response whose body is `"denied"` is surfaced
as the unauthorized failure, whose message does not contain the body text
— so not every non-2xx failure carries the response body text. -/
theorem non2xx_counterexample :
    (apiRequest env401 emptyReg .GET "/x" none none).outcome
        = Except.error "API error: 401 Unauthorized http://a/x" ∧
    containsSub "API error: 401 Unauthorized http://a/x" "denied" = false :=
  ⟨rfl, rfl⟩

/-- C4 (amended): every non-2xx response has its body read as text
(best-effort); a status other than 401 raises the API failure whose
message carries the status code, the URL, and the body text, while a 401
raises the distinct unauthorized failure carrying the status and URL but
not the body text. -/
theorem non2xx_error_surface (env : Env) (inflight : Registry)
    (method : Method) (path : String) (body : Option String)
    (opts : Option RequestOpts) (t : Nat) (resp : HttpResponse)
    (hfresh : inflight (fingerprint method (env.apiBase ++ path) body) = none)
    (hnet : env.net = NetBehavior.respondsAt t resp)
    (hna : ¬ effAbortTime opts < t)
    (hbad : ¬ (200 ≤ resp.status ∧ resp.status ≤ 299)) :
    (runRequest env method (env.apiBase ++ path) body opts).readBody
        = true ∧
    (apiRequest env inflight method path body opts).outcome =
      (if resp.status = 401
       then Except.error (unauthorizedMsg (env.apiBase ++ path))
       else Except.error (apiErrorMsg resp.status (env.apiBase ++ path)
              (resp.bodyText.getD ""))) ∧
    containsSub (apiErrorMsg resp.status (env.apiBase ++ path)
        (resp.bodyText.getD "")) (toString resp.status) = true ∧
    containsSub (apiErrorMsg resp.status (env.apiBase ++ path)
        (resp.bodyText.getD "")) (env.apiBase ++ path) = true ∧
    containsSub (apiErrorMsg resp.status (env.apiBase ++ path)
        (resp.bodyText.getD "")) (resp.bodyText.getD "") = true := by
  have hh1 : (handleResponse env.jsonParse (env.apiBase ++ path) resp).1 =
      (if resp.status = 401
       then Except.error (unauthorizedMsg (env.apiBase ++ path))
       else Except.error (apiErrorMsg resp.status (env.apiBase ++ path)
              (resp.bodyText.getD ""))) := by
    unfold handleResponse
    rw [if_pos hbad]
    split <;> rfl
  have hh2 : (handleResponse env.jsonParse (env.apiBase ++ path) resp).2
      = true := by
    unfold handleResponse
    rw [if_pos hbad]
    split <;> rfl
  have hro : (runRequest env method (env.apiBase ++ path) body opts).outcome
      = (handleResponse env.jsonParse (env.apiBase ++ path) resp).1 := by
    unfold runRequest
    rw [hnet]
    simp [hna]
  have hrb : (runRequest env method (env.apiBase ++ path) body opts).readBody
      = (handleResponse env.jsonParse (env.apiBase ++ path) resp).2 := by
    unfold runRequest
    rw [hnet]
    simp [hna]
  refine ⟨hrb.trans hh2, ?_, ?_, ?_, ?_⟩
  · by_cases hm : method = .GET
    · subst hm
      simp [apiRequest, hfresh, hro, hh1]
    · simp [apiRequest, hm, hro, hh1]
  · exact containsSub_of_decomp _ _ "API error: ".toList
      ((" " ++ (env.apiBase ++ path) ++ " " ++ resp.bodyText.getD "").toList)
      (by simp [apiErrorMsg, toList_append, List.append_assoc])
  · exact containsSub_of_decomp _ _
      (("API error: " ++ toString resp.status ++ " ").toList)
      ((" " ++ resp.bodyText.getD "").toList)
      (by simp [apiErrorMsg, toList_append, List.append_assoc])
  · exact containsSub_of_decomp _ _
      (("API error: " ++ toString resp.status ++ " "
          ++ (env.apiBase ++ path) ++ " ").toList)
      ([])
      (by simp [apiErrorMsg, toList_append, List.append_assoc])

/-- A 500 response with body `"boom"`. -/
def env500 : Env :=
  { apiBase := "http://a", token := none, jsonParse := fun _ => none,
    net := NetBehavior.respondsAt 5 { status := 500, bodyText := some "boom" } }

theorem non2xx_error_surface_witness :
    (apiRequest env500 emptyReg .GET "/x" none none).outcome
        = Except.error "API error: 500 http://a/x boom" ∧
    containsSub "API error: 500 http://a/x boom" "boom" = true ∧
    containsSub "API error: 500 http://a/x boom" "500" = true :=
  have h := non2xx_error_surface env500 emptyReg .GET "/x" none none 5
    { status := 500, bodyText := some "boom" }
    (by rfl) (by rfl) (by decide) (by decide)
  ⟨h.2.1.trans (by rfl), h.2.2.2.2, h.2.2.1⟩

/-- C5: every 2xx response decodes as follows — 204 yields the empty
result without the body ever being read; otherwise the body text is read,
an empty text yields the empty result, a text the host parser accepts
yields the parsed value, and any other text is returned raw (the parse
failure is not surfaced as an error). -/
theorem success_decoding (env : Env) (inflight : Registry) (method : Method)
    (path : String) (body : Option String) (opts : Option RequestOpts)
    (t : Nat) (resp : HttpResponse)
    (hfresh : inflight (fingerprint method (env.apiBase ++ path) body) = none)
    (hnet : env.net = NetBehavior.respondsAt t resp)
    (hna : ¬ effAbortTime opts < t)
    (hok : 200 ≤ resp.status ∧ resp.status ≤ 299) :
    (apiRequest env inflight method path body opts).outcome =
      (if resp.status = 204 then Except.ok Success.empty
       else if resp.bodyText.getD "" = "" then Except.ok Success.empty
       else match env.jsonParse (resp.bodyText.getD "") with
         | some v => Except.ok (Success.json v)
         | none => Except.ok (Success.raw (resp.bodyText.getD ""))) ∧
    (resp.status = 204 →
      (runRequest env method (env.apiBase ++ path) body opts).readBody
        = false) := by
  have hnotbad : ¬ ¬ (200 ≤ resp.status ∧ resp.status ≤ 299) :=
    not_not_intro hok
  have hh1 : (handleResponse env.jsonParse (env.apiBase ++ path) resp).1 =
      (if resp.status = 204 then Except.ok Success.empty
       else if resp.bodyText.getD "" = "" then Except.ok Success.empty
       else match env.jsonParse (resp.bodyText.getD "") with
         | some v => Except.ok (Success.json v)
         | none => Except.ok (Success.raw (resp.bodyText.getD ""))) := by
    unfold handleResponse
    rw [if_neg hnotbad]
    by_cases h204 : resp.status = 204
    · simp [h204]
    · rw [if_neg h204, if_neg h204]
      by_cases hemp : resp.bodyText.getD "" = ""
      · simp [hemp]
      · rw [if_neg hemp, if_neg hemp]
        cases env.jsonParse (resp.bodyText.getD "") <;> rfl
  have hro : (runRequest env method (env.apiBase ++ path) body opts).outcome
      = (handleResponse env.jsonParse (env.apiBase ++ path) resp).1 := by
    unfold runRequest
    rw [hnet]
    simp [hna]
  constructor
  · by_cases hm : method = .GET
    · subst hm
      simp only [apiRequest]
      simp [hfresh, hro, hh1]
    · simp only [apiRequest]
      simp [hm, hro, hh1]
  · intro h204
    have hrb : (runRequest env method (env.apiBase ++ path) body opts).readBody
        = (handleResponse env.jsonParse (env.apiBase ++ path) resp).2 := by
      unfold runRequest
      rw [hnet]
      simp [hna]
    rw [hrb]
    unfold handleResponse
    rw [if_neg hnotbad, if_pos h204]

/-- A 204 response (its body, even if present upstream, is never read). -/
def env204 : Env :=
  { apiBase := "http://a", token := none, jsonParse := fun _ => none,
    net := NetBehavior.respondsAt 5 { status := 204, bodyText := some "ignored" } }

theorem success_decoding_witness :
    (apiRequest env204 emptyReg .GET "/x" none none).outcome
        = Except.ok Success.empty ∧
    (runRequest env204 .GET "http://a/x" none none).readBody = false :=
  have h := success_decoding env204 emptyReg .GET "/x" none none 5
    { status := 204, bodyText := some "ignored" }
    (by rfl) (by rfl) (by decide) (by decide)
  ⟨h.1.trans (by rfl), h.2 rfl⟩

/-- C6: the session provider is queried exactly once per run; a present
token is attached as a bearer Authorization header; with no session token
the request carries no Authorization header and its outcome is the same
as with any token (so it cannot fail merely for lack of one); a present
body attaches the JSON Content-Type header. -/
theorem auth_header_resolution (env : Env) (method : Method) (url : String)
    (body : Option String) (opts : Option RequestOpts) :
    (runRequest env method url body opts).sessionQueries = 1 ∧
    (∀ tok, env.token = some tok →
      ("Authorization", "Bearer " ++ tok)
          ∈ (runRequest env method url body opts).sentHeaders) ∧
    (env.token = none → ∀ v,
      ("Authorization", v) ∉ (runRequest env method url body opts).sentHeaders) ∧
    (body.isSome = true →
      ("Content-Type", "application/json")
          ∈ (runRequest env method url body opts).sentHeaders) ∧
    (∀ tok, env.token = none →
      (runRequest env method url body opts).outcome
        = (runRequest { env with token := some tok }
            method url body opts).outcome) := by
  have hsq : (runRequest env method url body opts).sessionQueries = 1 := by
    unfold runRequest
    rcases env.net with ⟨t, resp⟩ | t <;> dsimp only <;> split <;> rfl
  have hhd : (runRequest env method url body opts).sentHeaders
      = authHeaders env.token
          (if body.isSome then [("Content-Type", "application/json")]
           else []) := by
    unfold runRequest
    rcases env.net with ⟨t, resp⟩ | t <;> dsimp only <;> split <;> rfl
  refine ⟨hsq, ?_, ?_, ?_, ?_⟩
  · intro tok htok
    rw [hhd, htok]
    simp [authHeaders]
  · intro htok v
    rw [hhd, htok]
    cases body <;> simp [authHeaders]
  · intro hb
    rw [hhd, hb]
    cases env.token <;> simp [authHeaders]
  · intro tok htok
    unfold runRequest
    dsimp only
    rcases env.net with ⟨t, resp⟩ | t <;> dsimp only <;> split <;> rfl

/-- The environment `envW` with a session token present. -/
def envTok : Env :=
  { apiBase := "http://a", token := some "tok1", jsonParse := fun _ => none,
    net := NetBehavior.failsAt 0 }

theorem auth_header_resolution_witness :
    (runRequest envW .GET "http://a/w" none none).sessionQueries = 1 ∧
    ("Authorization", "v") ∉ (runRequest envW .GET "http://a/w" none none).sentHeaders ∧
    ("Content-Type", "application/json")
        ∈ (runRequest envTok .POST "http://a/w" (some "b") none).sentHeaders ∧
    ("Authorization", "Bearer tok1")
        ∈ (runRequest envTok .POST "http://a/w" (some "b") none).sentHeaders :=
  ⟨(auth_header_resolution envW .GET "http://a/w" none none).1,
   (auth_header_resolution envW .GET "http://a/w" none none).2.2.1 rfl "v",
   (auth_header_resolution envTok .POST "http://a/w" (some "b") none).2.2.2.1 rfl,
   (auth_header_resolution envTok .POST "http://a/w" (some "b") none).2.1
     "tok1" rfl⟩

/-- C10: each public verb helper is exactly the executor with its method
fixed and the remaining arguments forwarded: `apiGet`/`apiDelete` pass no
body, `apiPost`/`apiPut`/`apiPatch` pass the given body. -/
theorem verb_helpers_delegate (env : Env) (inflight : Registry)
    (path : String) (body : Option String) (opts : Option RequestOpts) :
    apiGet env inflight path opts
        = apiRequest env inflight .GET path none opts ∧
    apiPost env inflight path body opts
        = apiRequest env inflight .POST path body opts ∧
    apiPut env inflight path body opts
        = apiRequest env inflight .PUT path body opts ∧
    apiPatch env inflight path body opts
        = apiRequest env inflight .PATCH path body opts ∧
    apiDelete env inflight path opts
        = apiRequest env inflight .DELETE path none opts :=
  ⟨rfl, rfl, rfl, rfl, rfl⟩

end ApiClient
